import Mathlib

/-!
Shallow embedding of the CV-Lock-Holmes resume analyzer:
`src/database.py` (account and history store over sqlite) and
`src/utils.py` (PDF text normalization and Gemini response parsing).

The sqlite database is modelled as explicit state (`DB`): the two tables
are lists of rows, AUTOINCREMENT ids and CURRENT_TIMESTAMP are modelled
by counters threaded through the state.  The SHA-256 digest of
`hash_password` is modelled as an abstract function parameter
`hashFn : String → String` applied to the password alone, exactly as
line 16 of `database.py` applies `hashlib.sha256` to the password alone.
The `except Exception` paths of the Python functions are modelled by an
explicit `storeFault` flag where a claim depends on them.
-/

/-- A row of the `users` table (database.py, `init_db`). -/
structure UserRow where
  id : Nat
  username : String
  email : String
  password_hash : String
  deriving Repr, DecidableEq

/-- A row of the `analysis_history` table (database.py, `init_db`).
`created_at` is the write-time timestamp, modelled as a logical clock. -/
structure AnalysisRow where
  id : Nat
  user_id : Nat
  filename : String
  match_score : Int
  job_title : Option String
  analysis_data : String
  created_at : Nat
  deriving Repr, DecidableEq

/-- The sqlite database state: both tables plus the AUTOINCREMENT
counters and the timestamp clock. -/
structure DB where
  users : List UserRow
  analyses : List AnalysisRow
  nextUserId : Nat
  nextAnalysisId : Nat
  clock : Nat
  deriving Repr, DecidableEq

def emptyDB : DB := ⟨[], [], 1, 1, 0⟩

/-- `create_user` (database.py lines 51-71).  The UNIQUE constraint on
`username` raises `sqlite3.IntegrityError`, caught and turned into
`False`; any other persistence error (`except Exception`, modelled by
`storeFault`) is also caught and turned into `False`.  Success inserts
the row with `hashFn password` as digest and returns `True`. -/
def create_user (hashFn : String → String) (storeFault : Bool) (db : DB)
    (username email password : String) : Bool × DB :=
  if storeFault then (false, db)
  else if db.users.any (fun u => u.username = username) then (false, db)
  else
    (true,
      { db with
        users := db.users ++ [⟨db.nextUserId, username, email, hashFn password⟩]
        nextUserId := db.nextUserId + 1 })

/-- `verify_user` (database.py lines 73-94): selects the id of a row
whose `username` and `password_hash` both match, returns it, else
`None`. -/
def verify_user (hashFn : String → String) (db : DB)
    (username password : String) : Option Nat :=
  (db.users.find? fun u =>
    u.username = username && u.password_hash = hashFn password).map (fun u => u.id)

/-- `save_analysis` (database.py lines 96-112): inserts the row as
given — the match score is not validated — and returns `True`. -/
def save_analysis (db : DB) (user_id : Nat) (filename : String)
    (match_score : Int) (job_title : Option String) (analysis_data : String) :
    Bool × DB :=
  (true,
    { db with
      analyses := db.analyses ++
        [⟨db.nextAnalysisId, user_id, filename, match_score, job_title,
          analysis_data, db.clock⟩]
      nextAnalysisId := db.nextAnalysisId + 1
      clock := db.clock + 1 })

/-- The projected columns of `get_user_history`'s SELECT. -/
structure HistoryRow where
  id : Nat
  created_at : Nat
  filename : String
  match_score : Int
  job_title : Option String
  deriving Repr, DecidableEq

def AnalysisRow.project (r : AnalysisRow) : HistoryRow :=
  ⟨r.id, r.created_at, r.filename, r.match_score, r.job_title⟩

/-- `ORDER BY created_at DESC`: insertion sort by descending timestamp. -/
def insertDesc (r : HistoryRow) : List HistoryRow → List HistoryRow
  | [] => [r]
  | x :: xs =>
    if x.created_at ≤ r.created_at then r :: x :: xs
    else x :: insertDesc r xs

def sortDesc : List HistoryRow → List HistoryRow
  | [] => []
  | x :: xs => insertDesc x (sortDesc xs)

/-- `get_user_history` (database.py lines 114-134): rows of the
caller's account, newest first, at most `limit` of them. -/
def get_user_history (db : DB) (user_id : Nat) (limit : Nat) :
    List HistoryRow :=
  (sortDesc ((db.analyses.filter fun r => r.user_id = user_id).map
    AnalysisRow.project)).take limit

/-- `delete_analysis` (database.py lines 165-184): deletes the rows
matching both the record id and the caller's account id, then returns
`True` unconditionally — the affected row count is never examined. -/
def delete_analysis (db : DB) (user_id analysis_id : Nat) : Bool × DB :=
  (true,
    { db with
      analyses := db.analyses.filter fun r =>
        !(r.id = analysis_id && r.user_id = user_id) })

/-- Truncation toward zero, as SQL integer context and Python `int()`
on a float both truncate toward zero. -/
def truncRat (q : Rat) : Int := q.num.tdiv (q.den : Int)

def listMaxInt : List Int → Option Int
  | [] => none
  | x :: xs =>
    match listMaxInt xs with
    | none => some x
    | some m => some (max x m)

def listMinInt : List Int → Option Int
  | [] => none
  | x :: xs =>
    match listMinInt xs with
    | none => some x
    | some m => some (min x m)

/-- The result dict of `get_user_stats`.  `avg_score`, `best_score` and
`lowest_score` are `Option` because sqlite's `AVG`/`MAX`/`MIN` over an
empty set are NULL. -/
structure Stats where
  total_analyses : Nat
  avg_score : Option Rat
  best_score : Option Int
  lowest_score : Option Int
  deriving Repr, DecidableEq

/-- `get_user_stats` (database.py lines 136-163).  The aggregate SELECT
always yields exactly one row, so the Python `result[i] if result else 0`
fallbacks never fire: the row's values — NULL for the aggregates over an
empty set — pass straight into the dict. -/
def get_user_stats (db : DB) (user_id : Nat) : Stats :=
  let scores := (db.analyses.filter fun r => r.user_id = user_id).map
    (fun r => r.match_score)
  { total_analyses := scores.length
    avg_score :=
      if scores.length = 0 then none
      else some ((scores.foldl (fun a b => a + b) 0 : Int) / (scores.length : Rat))
    best_score := listMaxInt scores
    lowest_score := listMinInt scores }

/-!  Text extraction and normalization (utils.py lines 15-33). -/

/-- Python's `\s` / `str.strip()` whitespace, on the ASCII range the
claims range over. -/
def pyIsSpace (c : Char) : Bool :=
  c = ' ' || c = '\t' || c = '\n' || c = '\r' ||
  c = Char.ofNat 11 || c = Char.ofNat 12

/-- `re.sub(r'\s+', ' ', text)`: each maximal whitespace run becomes a
single space.  The boolean argument records whether the previous
character belonged to a run already replaced. -/
def collapseWsAux : Bool → List Char → List Char
  | _, [] => []
  | prevWs, c :: cs =>
    if pyIsSpace c then
      if prevWs then collapseWsAux true cs
      else ' ' :: collapseWsAux true cs
    else c :: collapseWsAux false cs

def collapseWs (l : List Char) : List Char := collapseWsAux false l

/-- Python `str.strip()`. -/
def pyStrip (l : List Char) : List Char :=
  ((l.dropWhile pyIsSpace).reverse.dropWhile pyIsSpace).reverse

/-- utils.py line 29: `re.sub(r'\s+', ' ', text).strip()`. -/
def normalizeText (l : List Char) : List Char := pyStrip (collapseWs l)

/-- `extract_text_from_pdf` (utils.py lines 15-33).  The PDF library's
output is the oracle input: `none` models an extraction exception
(caught, function returns `None`), `some raw` the concatenated page
text.  The normalized text is returned as-is — in particular the empty
string is returned as a success, not mapped to `None`. -/
def extract_text_from_pdf (pdfText : Option (List Char)) :
    Option (List Char) :=
  match pdfText with
  | none => none
  | some raw => some (normalizeText raw)

/-!  Gemini response parsing (utils.py lines 35-89).  The external model
call is an oracle: the embedding takes the raw response text as input
and models lines 65-82 — strip, code-fence removal, `json.loads`, key
presence check, `int` coercion.  JSON floats are modelled as exact
rationals; `\uXXXX` string escapes and underscores in `int()` literals
are outside the modelled subset. -/

inductive Json where
  | null : Json
  | bool (b : Bool) : Json
  | num (q : Rat) : Json
  | str (s : String) : Json
  | arr (elems : List Json) : Json
  | obj (members : List (String × Json)) : Json

def backtick : Char := Char.ofNat 96

def fenceJsonPat : List Char :=
  backtick :: backtick :: backtick :: 'j' :: 's' :: 'o' :: 'n' :: []

def fencePat : List Char := backtick :: backtick :: backtick :: []

/-- One global-substitution pass of `re.sub(pat ++ r'\s*', '', text)`
for a literal pattern `pat`: scan left to right, on a match drop the
pattern and the following whitespace run and continue after it. -/
def removePatAux (pat : List Char) : Nat → List Char → List Char
  | 0, l => l
  | _ + 1, [] => []
  | fuel + 1, c :: cs =>
    if pat.isPrefixOf (c :: cs) then
      removePatAux pat fuel (((c :: cs).drop pat.length).dropWhile pyIsSpace)
    else c :: removePatAux pat fuel cs

def removePat (pat : List Char) (l : List Char) : List Char :=
  removePatAux pat (l.length + 1) l

/-- JSON whitespace accepted by `json.loads` between tokens. -/
def jsonWsChar (c : Char) : Bool :=
  c = ' ' || c = '\t' || c = '\n' || c = '\r'

def skipJsonWs (l : List Char) : List Char := l.dropWhile jsonWsChar

/-- JSON string body after the opening quote: content and remainder. -/
def parseStringBody : List Char → Option (List Char × List Char)
  | [] => none
  | c :: cs =>
    if c = '"' then some ([], cs)
    else if c = '\\' then
      match cs with
      | [] => none
      | e :: cs2 =>
        match
          (if e = '"' then some '"'
           else if e = '\\' then some '\\'
           else if e = '/' then some '/'
           else if e = 'n' then some '\n'
           else if e = 't' then some '\t'
           else if e = 'r' then some '\r'
           else if e = 'b' then some (Char.ofNat 8)
           else if e = 'f' then some (Char.ofNat 12)
           else none) with
        | none => none
        | some ch =>
          match parseStringBody cs2 with
          | none => none
          | some (s, rest) => some (ch :: s, rest)
    else
      match parseStringBody cs with
      | none => none
      | some (s, rest) => some (c :: s, rest)

def digitVal (c : Char) : Nat := c.toNat - 48

def digitsToNat (l : List Char) : Nat :=
  l.foldl (fun a c => a * 10 + digitVal c) 0

/-- Optional exponent part of a JSON number, then sign application. -/
def applySignExp (neg : Bool) (mant : Rat) (l : List Char) :
    Option (Rat × List Char) :=
  match l with
  | c :: rest =>
    if c = 'e' || c = 'E' then
      let (eneg, r2) :=
        match rest with
        | d :: r3 =>
          if d = '-' then (true, r3)
          else if d = '+' then (false, r3)
          else (false, rest)
        | [] => (false, rest)
      let ds := r2.takeWhile Char.isDigit
      if ds.isEmpty then none
      else
        let e := digitsToNat ds
        let scaled :=
          if eneg then mant / ((10 : Rat) ^ e) else mant * ((10 : Rat) ^ e)
        some ((if neg then -scaled else scaled), r2.dropWhile Char.isDigit)
    else some ((if neg then -mant else mant), l)
  | [] => some ((if neg then -mant else mant), l)

/-- Optional fraction part after the integer part of a JSON number. -/
def parseAfterInt (neg : Bool) (ip : Nat) (l : List Char) :
    Option (Rat × List Char) :=
  match l with
  | c :: rest =>
    if c = '.' then
      let ds := rest.takeWhile Char.isDigit
      if ds.isEmpty then none
      else
        let mant : Rat :=
          (ip : Rat) + (digitsToNat ds : Rat) / ((10 : Rat) ^ ds.length)
        applySignExp neg mant (rest.dropWhile Char.isDigit)
    else applySignExp neg (ip : Rat) l
  | [] => applySignExp neg (ip : Rat) l

def parseNumber (l : List Char) : Option (Rat × List Char) :=
  let (neg, l1) :=
    match l with
    | c :: rest => if c = '-' then (true, rest) else (false, l)
    | [] => (false, l)
  match l1 with
  | c :: rest =>
    if c = '0' then parseAfterInt neg 0 rest
    else if c.isDigit then
      parseAfterInt neg (digitsToNat (l1.takeWhile Char.isDigit))
        (l1.dropWhile Char.isDigit)
    else none
  | [] => none

def expectLit (lit : List Char) (j : Json) (l : List Char) :
    Option (Json × List Char) :=
  if lit.isPrefixOf l then some (j, l.drop lit.length) else none

mutual

def parseValue : Nat → List Char → Option (Json × List Char)
  | 0, _ => none
  | fuel + 1, l =>
    match skipJsonWs l with
    | [] => none
    | c :: rest =>
      if c = '{' then parseObjBody fuel rest
      else if c = '[' then parseArrBody fuel rest
      else if c = '"' then
        match parseStringBody rest with
        | none => none
        | some (s, r) => some (Json.str (String.mk s), r)
      else if c = 't' then
        expectLit ('t' :: 'r' :: 'u' :: 'e' :: []) (Json.bool true) (c :: rest)
      else if c = 'f' then
        expectLit ('f' :: 'a' :: 'l' :: 's' :: 'e' :: []) (Json.bool false)
          (c :: rest)
      else if c = 'n' then
        expectLit ('n' :: 'u' :: 'l' :: 'l' :: []) Json.null (c :: rest)
      else if c = '-' || c.isDigit then
        match parseNumber (c :: rest) with
        | none => none
        | some (q, r) => some (Json.num q, r)
      else none

def parseObjBody : Nat → List Char → Option (Json × List Char)
  | 0, _ => none
  | fuel + 1, l =>
    match skipJsonWs l with
    | [] => none
    | c :: rest =>
      if c = '}' then some (Json.obj [], rest)
      else parseMembers fuel [] (c :: rest)

def parseMembers :
    Nat → List (String × Json) → List Char → Option (Json × List Char)
  | 0, _, _ => none
  | fuel + 1, acc, l =>
    match skipJsonWs l with
    | [] => none
    | c :: rest =>
      if c = '"' then
        match parseStringBody rest with
        | none => none
        | some (k, r1) =>
          match skipJsonWs r1 with
          | ':' :: r2 =>
            match parseValue fuel r2 with
            | none => none
            | some (v, r3) =>
              match skipJsonWs r3 with
              | ',' :: r4 => parseMembers fuel (acc ++ [(String.mk k, v)]) r4
              | '}' :: r4 => some (Json.obj (acc ++ [(String.mk k, v)]), r4)
              | _ => none
          | _ => none
      else none

def parseArrBody : Nat → List Char → Option (Json × List Char)
  | 0, _ => none
  | fuel + 1, l =>
    match skipJsonWs l with
    | [] => none
    | c :: rest =>
      if c = ']' then some (Json.arr [], rest)
      else parseItems fuel [] (c :: rest)

def parseItems : Nat → List Json → List Char → Option (Json × List Char)
  | 0, _, _ => none
  | fuel + 1, acc, l =>
    match parseValue fuel l with
    | none => none
    | some (v, r1) =>
      match skipJsonWs r1 with
      | ',' :: r2 => parseItems fuel (acc ++ [v]) r2
      | ']' :: r2 => some (Json.arr (acc ++ [v]), r2)
      | _ => none

end

/-- `json.loads`: parse one JSON value and require only whitespace to
remain — trailing or leading prose is a parse error, no substring
extraction happens. -/
def json_loads (l : List Char) : Option Json :=
  match parseValue (3 * l.length + 8) l with
  | none => none
  | some (j, rest) => if (skipJsonWs rest).isEmpty then some j else none

/-- The validated result of `analyze_resume_with_gemini`: only
`match_score` is coerced; the other three fields are returned exactly
as parsed, with no type check. -/
structure Assessment where
  match_score : Int
  missing_skills : Json
  profile_summary : Json
  improvements : Json

/-- Python dict built by `json.loads`: the last duplicate key wins. -/
def lookupLast (kvs : List (String × Json)) (k : String) : Option Json :=
  kvs.foldl (fun acc kv => if kv.fst = k then some kv.snd else acc) none

/-- Python `int(str)`: optional surrounding whitespace, optional sign,
decimal digits. -/
def pyIntOfString (s : String) : Option Int :=
  let l := pyStrip s.toList
  let (neg, l1) :=
    match l with
    | c :: rest =>
      if c = '-' then (true, rest)
      else if c = '+' then (false, rest)
      else (false, l)
    | [] => (false, l)
  if l1.isEmpty then none
  else if l1.all Char.isDigit then
    some (if neg then -(digitsToNat l1 : Int) else (digitsToNat l1 : Int))
  else none

/-- Python `int(x)` on a JSON-decoded value: ints and floats truncate
toward zero, numeric strings parse, booleans map to 0/1, anything else
raises (`none`). -/
def coerceInt : Json → Option Int
  | Json.num q => some (truncRat q)
  | Json.str s => pyIntOfString s
  | Json.bool b => some (if b then 1 else 0)
  | _ => none

/-- utils.py lines 74-82: require the four keys, coerce `match_score`.
On a non-dict value every code path raises (`field in analysis` or the
subscript), and the exception is caught returning `None`, so non-object
values map to `none`. -/
def validateAnalysis (j : Json) : Option Assessment :=
  match j with
  | Json.obj kvs =>
    if (lookupLast kvs "match_score").isSome
        && (lookupLast kvs "missing_skills").isSome
        && (lookupLast kvs "profile_summary").isSome
        && (lookupLast kvs "improvements").isSome then
      match lookupLast kvs "match_score" with
      | none => none
      | some ms =>
        match coerceInt ms with
        | none => none
        | some n =>
          some
            { match_score := n
              missing_skills := (lookupLast kvs "missing_skills").getD Json.null
              profile_summary := (lookupLast kvs "profile_summary").getD Json.null
              improvements := (lookupLast kvs "improvements").getD Json.null }
    else none
  | _ => none

/-- `analyze_resume_with_gemini` response handling (utils.py lines
64-89): strip the response, delete every code-fence marker (first the
pattern with `json`, then the bare one, each with trailing whitespace),
`json.loads` the whole remaining text, validate.  Every failure path
returns `None`. -/
def analyze_resume_with_gemini (responseText : List Char) :
    Option Assessment :=
  let t0 := pyStrip responseText
  let t1 := removePat fenceJsonPat t0
  let t2 := removePat fencePat t1
  match json_loads t2 with
  | none => none
  | some j => validateAnalysis j

/-- Modelled from the spec: "the parser must locate the first
well-formed JSON object substring (balanced braces, greedy to last
closing brace)" — the substring from the first opening brace to the
last closing brace.  This behavior is absent from utils.py; the
definition exists only to be compared with the code's pipeline. -/
def spec_extract_json_span (l : List Char) : Option (List Char) :=
  let l1 := l.dropWhile (fun c => !(c = '{'))
  let l2 := (l1.reverse.dropWhile (fun c => !(c = '}'))).reverse
  if l2.isEmpty then none else some l2

/-- A concrete hash function standing in for SHA-256 in witnesses. -/
def someHash (s : String) : String := s ++ "!"

/-- A single well-formed assessment object, as instructed output. -/
def goodResp : List Char :=
  ("\x7b\"match_score\": 72, \"missing_skills\": [\"Go\"], " ++
   "\"profile_summary\": \"Good fit\", " ++
   "\"improvements\": [\"Add metrics\"]\x7d").toList

/-- The same object preceded by a prose preamble (no code fences). -/
def proseResp : List Char :=
  ("Sure, here is the assessment: ").toList ++ goodResp

/-- A response parsed to an object missing three required keys. -/
def respMissingKeys : List Char := ("\x7b\"match_score\": 5\x7d").toList

/-- Store with two accounts where account 2 owns record 1. -/
def dbC2 : DB :=
  { users := [⟨1, "alice", "a@x", "h1"⟩, ⟨2, "bob", "b@x", "h2"⟩]
    analyses := [⟨1, 2, "cv.pdf", 73, some "Dev", "data", 0⟩]
    nextUserId := 3
    nextAnalysisId := 2
    clock := 1 }

/-- Store holding just the account "alice". -/
def dbAlice : DB := (create_user someHash false emptyDB "alice" "a@x" "pw").snd

/-!  Claim theorems. -/

set_option maxRecDepth 40000

/-- C2 counterexample: account 1 attempts to delete record 1, which is
owned by account 2.  The record survives — but the call returns `true`
(the Ok outcome of `delete_analysis`), not a NotFound outcome: the
function never inspects the affected-row count, contradicting the claim
that such a call "returns NotFound (not Ok)". -/
theorem delete_foreign_record_reports_ok :
    (delete_analysis dbC2 1 1).fst = true ∧
    (get_user_history (delete_analysis dbC2 1 1).snd 2 10).any
      (fun r => r.id = 1) = true := by
  decide

/-- C2 amended: deleting a record id that the calling account does not
own leaves the store bit-for-bit unchanged (so the owner's history still
contains the record), but the call reports the success value `true`
rather than NotFound. -/
theorem delete_foreign_record_noop (db : DB) (A rid : Nat)
    (h : ∀ r ∈ db.analyses, r.id = rid → r.user_id ≠ A) :
    delete_analysis db A rid = (true, db) := by
  have hf : (db.analyses.filter fun r => !(r.id = rid && r.user_id = A)) =
      db.analyses := by
    rw [List.filter_eq_self]
    intro r hr
    by_cases hid : r.id = rid
    · simp [hid, h r hr hid]
    · simp [hid]
  simp only [delete_analysis, hf]

/-- C2 amended witness at the concrete store `dbC2`. -/
theorem delete_foreign_record_noop_witness :
    (∀ r ∈ dbC2.analyses, r.id = 1 → r.user_id ≠ 1) ∧
    delete_analysis dbC2 1 1 = (true, dbC2) :=
  ⟨by decide, delete_foreign_record_noop dbC2 1 1 (by decide)⟩

/-- C4 counterexample: `create_user` returns the same value `false`
for a username-uniqueness violation (inserting "alice" again) and for a
generic persistence error (the `storeFault` path), so the two outcomes
are not distinguished, contradicting the claim. -/
theorem create_user_failures_indistinct :
    (create_user someHash false dbAlice "alice" "x@x" "pw2").fst = false ∧
    (create_user someHash true dbAlice "carol" "c@x" "pw3").fst = false ∧
    (create_user someHash false dbAlice "alice" "x@x" "pw2").fst =
      (create_user someHash true dbAlice "carol" "c@x" "pw3").fst := by
  decide

/-- C4 amended: a storage-layer uniqueness violation and any other
persistence error both surface as the single value `false`; `create_user`
does not distinguish UsernameTaken from a generic store failure. -/
theorem create_user_false_on_both_failures (hashFn : String → String)
    (db : DB) (u e p u2 e2 p2 : String)
    (htaken : db.users.any (fun r => r.username = u) = true) :
    (create_user hashFn false db u e p).fst = false ∧
    (create_user hashFn true db u2 e2 p2).fst = false := by
  constructor
  · simp [create_user, htaken]
  · simp [create_user]

/-- C4 amended witness on the concrete store `dbAlice`. -/
theorem create_user_false_on_both_failures_witness :
    dbAlice.users.any (fun r => r.username = "alice") = true ∧
    (create_user someHash false dbAlice "alice" "x@x" "pw2").fst = false ∧
    (create_user someHash true dbAlice "carol" "c@x" "pw3").fst = false :=
  ⟨by decide,
   create_user_false_on_both_failures someHash dbAlice "alice" "x@x" "pw2"
     "carol" "c@x" "pw3" (by decide)⟩

/-- C5: on an account with zero persisted records, `get_user_stats`
returns count 0 but NULL (`none`) — not a zero-safe value — for the
average, best and lowest score: the sqlite aggregate row always exists,
so the `result[i] if result else 0` fallbacks written in the code never
fire and the NULLs pass through. -/
theorem stats_empty_account_yields_nulls :
    get_user_stats emptyDB 1 =
      { total_analyses := 0, avg_score := none, best_score := none,
        lowest_score := none } := by
  decide

/-- C6 counterexample: a parseable PDF whose extracted text is only
whitespace is returned by `extract_text_from_pdf` as a successful empty
string, not as the `None` failure the claim requires. -/
theorem extract_whitespace_only_succeeds_empty :
    extract_text_from_pdf (some (' ' :: '\n' :: '\t' :: [])) = some [] ∧
    (extract_text_from_pdf (some (' ' :: '\n' :: '\t' :: []))).isNone
      = false := by
  decide

/-- C6 amended: `extract_text_from_pdf` fails with `None` exactly when
the PDF library raises (the file cannot be parsed); a parseable PDF
with only whitespace yields a successful empty text, which only the
caller in app.py treats as a failure. -/
theorem extract_none_iff_unparseable (pdfText : Option (List Char)) :
    extract_text_from_pdf pdfText = none ↔ pdfText = none := by
  cases pdfText <;> simp [extract_text_from_pdf]

/-- Store states reachable through the persistence API when every save
carries an in-range score (the call-site discipline the C3 amendment
assumes). -/
inductive ReachableInRange : DB → Prop where
  | init : ReachableInRange emptyDB
  | create (hashFn : String → String) (f : Bool) (u e p : String) {db : DB} :
      ReachableInRange db →
      ReachableInRange (create_user hashFn f db u e p).snd
  | save {db : DB} (uid : Nat) (fn : String) (s : Int) (jt : Option String)
      (d : String) (hs : 0 ≤ s ∧ s ≤ 100) :
      ReachableInRange db →
      ReachableInRange (save_analysis db uid fn s jt d).snd
  | del {db : DB} (uid aid : Nat) :
      ReachableInRange db →
      ReachableInRange (delete_analysis db uid aid).snd

theorem mem_insertDesc {r x : HistoryRow} {l : List HistoryRow}
    (h : r ∈ insertDesc x l) : r = x ∨ r ∈ l := by
  induction l with
  | nil =>
    simp [insertDesc] at h
    exact Or.inl h
  | cons y ys ih =>
    by_cases hc : y.created_at ≤ x.created_at
    · simp [insertDesc, hc] at h
      rcases h with h | h | h
      · exact Or.inl h
      · exact Or.inr (by simp [h])
      · exact Or.inr (by simp [h])
    · simp [insertDesc, hc] at h
      rcases h with h | h
      · exact Or.inr (by simp [h])
      · rcases ih h with h2 | h2
        · exact Or.inl h2
        · exact Or.inr (by simp [h2])

theorem mem_sortDesc {r : HistoryRow} {l : List HistoryRow}
    (h : r ∈ sortDesc l) : r ∈ l := by
  induction l with
  | nil => simp [sortDesc] at h
  | cons x xs ih =>
    rcases mem_insertDesc (by simpa [sortDesc] using h) with h2 | h2
    · simp [h2]
    · simp [ih h2]

theorem create_user_analyses (hashFn : String → String) (f : Bool)
    (db : DB) (u e p : String) :
    (create_user hashFn f db u e p).snd.analyses = db.analyses := by
  unfold create_user
  split
  · rfl
  · split <;> rfl

/-- Every record in a store reached through in-range saves has an
in-range score. -/
theorem reachable_scores_in_range {db : DB} (hdb : ReachableInRange db) :
    ∀ r ∈ db.analyses, 0 ≤ r.match_score ∧ r.match_score ≤ 100 := by
  induction hdb with
  | init => intro r hr; simp [emptyDB] at hr
  | create hashFn f u e p _ ih =>
    intro r hr
    rw [create_user_analyses] at hr
    exact ih r hr
  | save uid fn s jt d hs _ ih =>
    intro r hr
    simp only [save_analysis, List.mem_append, List.mem_singleton] at hr
    rcases hr with hr | hr
    · exact ih r hr
    · rw [hr]
      exact hs
  | del uid aid _ ih =>
    intro r hr
    simp only [delete_analysis] at hr
    exact ih r (List.mem_filter.mp hr).1

/-- C3 counterexample: `save_analysis` persists an out-of-range score
verbatim — saving 150 succeeds and `get_user_history` then returns a
record whose score exceeds 100, refuting the claimed invariant. -/
theorem save_persists_out_of_range_score :
    (save_analysis emptyDB 1 "cv.pdf" 150 (some "Dev") "data").fst = true ∧
    (get_user_history
      (save_analysis emptyDB 1 "cv.pdf" 150 (some "Dev") "data").snd 1
      10).any (fun r => 100 < r.match_score) = true := by
  decide

/-- C3 amended: `save_analysis` itself does not validate the score, so
the invariant holds only conditionally: in every store state reachable
with all saved scores in [0,100], every record returned by
`get_user_history` has its score in [0,100]. -/
theorem history_scores_in_range {db : DB} (hdb : ReachableInRange db)
    (uid lim : Nat) :
    ∀ row ∈ get_user_history db uid lim,
      0 ≤ row.match_score ∧ row.match_score ≤ 100 := by
  intro row hrow
  have h1 : row ∈ sortDesc ((db.analyses.filter
      fun r => r.user_id = uid).map AnalysisRow.project) :=
    List.mem_of_mem_take hrow
  rcases List.mem_map.mp (mem_sortDesc h1) with ⟨r, hr, hpr⟩
  have h4 := reachable_scores_in_range hdb r (List.mem_filter.mp hr).1
  rw [← hpr]
  exact h4

def db73 : DB := (save_analysis emptyDB 1 "cv.pdf" 73 none "data").snd

def row73 : HistoryRow := ⟨1, 0, "cv.pdf", 73, none⟩

/-- C3 amended witness: one in-range save, its listed record in range. -/
theorem history_scores_in_range_witness :
    row73 ∈ get_user_history db73 1 10 ∧
    0 ≤ row73.match_score ∧ row73.match_score ≤ 100 :=
  ⟨by decide,
   history_scores_in_range
     (ReachableInRange.save 1 "cv.pdf" 73 none "data" (by decide)
       ReachableInRange.init) 1 10 row73 (by decide)⟩

/-- C7: if the parsed response object lacks any of the four required
keys, or its `match_score` cannot be coerced to an integer, the whole
request fails with `None` — no partially populated Assessment exists. -/
theorem analyze_rejects_incomplete (resp : List Char)
    (kvs : List (String × Json))
    (hparse : json_loads (removePat fencePat
      (removePat fenceJsonPat (pyStrip resp))) = some (Json.obj kvs))
    (h : lookupLast kvs "match_score" = none ∨
         lookupLast kvs "missing_skills" = none ∨
         lookupLast kvs "profile_summary" = none ∨
         lookupLast kvs "improvements" = none ∨
         ∃ ms, lookupLast kvs "match_score" = some ms ∧ coerceInt ms = none) :
    analyze_resume_with_gemini resp = none := by
  have hdef : analyze_resume_with_gemini resp =
      match json_loads (removePat fencePat
        (removePat fenceJsonPat (pyStrip resp))) with
      | none => none
      | some j => validateAnalysis j := rfl
  rw [hdef, hparse]
  show validateAnalysis (Json.obj kvs) = none
  unfold validateAnalysis
  rcases h with h | h | h | h | ⟨ms, hms, hc⟩
  · simp [h]
  · simp [h]
  · simp [h]
  · simp [h]
  · simp [hms, hc]

/-- C7 witness: a response whose object carries only `match_score`. -/
theorem analyze_rejects_incomplete_witness :
    lookupLast [("match_score", Json.num 5)] "missing_skills" = none ∧
    analyze_resume_with_gemini respMissingKeys = none :=
  ⟨rfl,
   analyze_rejects_incomplete respMissingKeys [("match_score", Json.num 5)]
     rfl (Or.inr (Or.inl rfl))⟩

/-- C8: registering a fresh username and immediately authenticating
with the same credentials yields the freshly assigned account id, while
a wrong password for that username and an unknown username both yield
the very same `none` outcome. -/
theorem create_then_authenticate (hashFn : String → String) (db : DB)
    (u e p p2 u2 : String)
    (hfresh : ∀ r ∈ db.users, r.username ≠ u)
    (hwrong : hashFn p2 ≠ hashFn p)
    (hu2 : u2 ≠ u)
    (hfresh2 : ∀ r ∈ db.users, r.username ≠ u2) :
    (create_user hashFn false db u e p).fst = true ∧
    verify_user hashFn (create_user hashFn false db u e p).snd u p =
      some db.nextUserId ∧
    verify_user hashFn (create_user hashFn false db u e p).snd u p2 = none ∧
    verify_user hashFn (create_user hashFn false db u e p).snd u2 p = none := by
  have hany : db.users.any (fun r => r.username = u) = false := by
    rw [List.any_eq_false]
    intro r hr
    simp [hfresh r hr]
  have hsnd : (create_user hashFn false db u e p).snd =
      { db with
          users := db.users ++ [⟨db.nextUserId, u, e, hashFn p⟩],
          nextUserId := db.nextUserId + 1 } := by
    simp [create_user, hany]
  refine ⟨by simp [create_user, hany], ?_, ?_, ?_⟩
  · rw [hsnd]
    unfold verify_user
    have hnone : (db.users.find? fun r =>
        r.username = u && r.password_hash = hashFn p) = none := by
      rw [List.find?_eq_none]
      intro r hr
      simp [hfresh r hr]
    simp [List.find?_append, hnone, List.find?]
  · rw [hsnd]
    unfold verify_user
    have hnone : (db.users.find? fun r =>
        r.username = u && r.password_hash = hashFn p2) = none := by
      rw [List.find?_eq_none]
      intro r hr
      simp [hfresh r hr]
    simp [List.find?_append, hnone, List.find?, Ne.symm hwrong]
  · rw [hsnd]
    unfold verify_user
    have hnone : (db.users.find? fun r =>
        r.username = u2 && r.password_hash = hashFn p) = none := by
      rw [List.find?_eq_none]
      intro r hr
      simp [hfresh2 r hr]
    simp [List.find?_append, hnone, List.find?, Ne.symm hu2]

/-- C8 witness on an empty store with concrete credentials. -/
theorem create_then_authenticate_witness :
    someHash "wrongpw" ≠ someHash "secret1" ∧
    (create_user someHash false emptyDB "alice" "a@x" "secret1").fst = true ∧
    verify_user someHash
      (create_user someHash false emptyDB "alice" "a@x" "secret1").snd
      "alice" "secret1" = some 1 ∧
    verify_user someHash
      (create_user someHash false emptyDB "alice" "a@x" "secret1").snd
      "alice" "wrongpw" = none ∧
    verify_user someHash
      (create_user someHash false emptyDB "alice" "a@x" "secret1").snd
      "bob" "secret1" = none :=
  ⟨by decide,
   create_then_authenticate someHash emptyDB "alice" "a@x" "secret1"
     "wrongpw" "bob" (by simp [emptyDB]) (by decide) (by decide)
     (by simp [emptyDB])⟩

/-- The password digest stored for the account with the given
username. -/
def storedDigest (db : DB) (u : String) : Option String :=
  (db.users.find? fun r => r.username = u).map (fun r => r.password_hash)

/-- C10: the credential digest is a function of the password alone
(deterministic, unsalted), so two accounts created with the same
password hold byte-for-byte identical stored digests. -/
theorem same_password_same_stored_digest (hashFn : String → String)
    (db : DB) (u1 e1 u2 e2 p : String)
    (h1 : ∀ r ∈ db.users, r.username ≠ u1)
    (h2 : ∀ r ∈ db.users, r.username ≠ u2)
    (hne : u1 ≠ u2) :
    storedDigest (create_user hashFn false
        (create_user hashFn false db u1 e1 p).snd u2 e2 p).snd u1 =
      storedDigest (create_user hashFn false
        (create_user hashFn false db u1 e1 p).snd u2 e2 p).snd u2 ∧
    storedDigest (create_user hashFn false
        (create_user hashFn false db u1 e1 p).snd u2 e2 p).snd u1 =
      some (hashFn p) := by
  have hany1 : db.users.any (fun r => r.username = u1) = false := by
    rw [List.any_eq_false]
    intro r hr
    simp [h1 r hr]
  have hsnd1 : (create_user hashFn false db u1 e1 p).snd =
      { db with
          users := db.users ++ [⟨db.nextUserId, u1, e1, hashFn p⟩],
          nextUserId := db.nextUserId + 1 } := by
    simp [create_user, hany1]
  rw [hsnd1]
  have hany2 : ((db.users ++
      [(⟨db.nextUserId, u1, e1, hashFn p⟩ : UserRow)]).any
      (fun r => r.username = u2)) = false := by
    rw [List.any_eq_false]
    intro r hr
    rcases List.mem_append.mp hr with hr | hr
    · simp [h2 r hr]
    · simp [List.mem_singleton.mp hr, hne]
  have hsnd2 : (create_user hashFn false
      { db with
          users := db.users ++ [(⟨db.nextUserId, u1, e1, hashFn p⟩ : UserRow)],
          nextUserId := db.nextUserId + 1 } u2 e2 p).snd =
      { db with
          users := (db.users ++
              [(⟨db.nextUserId, u1, e1, hashFn p⟩ : UserRow)]) ++
            [⟨db.nextUserId + 1, u2, e2, hashFn p⟩],
          nextUserId := db.nextUserId + 2 } := by
    simp only [create_user, hany2, Bool.false_eq_true, if_false]
  rw [hsnd2]
  have hf1 : (db.users.find? fun r => r.username = u1) = none := by
    rw [List.find?_eq_none]
    intro r hr
    simp [h1 r hr]
  have hf2 : (db.users.find? fun r => r.username = u2) = none := by
    rw [List.find?_eq_none]
    intro r hr
    simp [h2 r hr]
  constructor
  · simp [storedDigest, List.find?_append, hf1, hf2, List.find?, hne]
  · simp [storedDigest, List.find?_append, hf1, List.find?]

/-- C10 witness: "alice" and "bob" registered with the same password
end with identical stored digests. -/
theorem same_password_same_stored_digest_witness :
    storedDigest (create_user someHash false
        (create_user someHash false emptyDB "alice" "a@x" "pw123").snd
        "bob" "b@x" "pw123").snd "alice" =
      storedDigest (create_user someHash false
        (create_user someHash false emptyDB "alice" "a@x" "pw123").snd
        "bob" "b@x" "pw123").snd "bob" ∧
    storedDigest (create_user someHash false
        (create_user someHash false emptyDB "alice" "a@x" "pw123").snd
        "bob" "b@x" "pw123").snd "alice" = some (someHash "pw123") :=
  same_password_same_stored_digest someHash emptyDB "alice" "a@x" "bob"
    "b@x" "pw123" (by simp [emptyDB]) (by simp [emptyDB]) (by decide)

/-- No two adjacent characters are both whitespace. -/
def noDoubleWs : List Char → Bool
  | [] => true
  | [_] => true
  | a :: b :: rest => (!(pyIsSpace a && pyIsSpace b)) && noDoubleWs (b :: rest)

theorem noDoubleWs_iff_chain (l : List Char) :
    noDoubleWs l = true ↔
      l.Chain' (fun a b => (pyIsSpace a && pyIsSpace b) = false) := by
  induction l with
  | nil => simp [noDoubleWs]
  | cons a l ih =>
    cases l with
    | nil => simp [noDoubleWs]
    | cons b m =>
      rw [List.chain'_cons, ← ih]
      simp only [noDoubleWs, Bool.and_eq_true, Bool.not_eq_true']

theorem collapse_true_head (cs : List Char) :
    ∀ c, (collapseWsAux true cs).head? = some c → pyIsSpace c = false := by
  induction cs with
  | nil => intro c h; simp [collapseWsAux] at h
  | cons a as ih =>
    intro c h
    by_cases ha : pyIsSpace a = true
    · have he : collapseWsAux true (a :: as) = collapseWsAux true as := by
        simp [collapseWsAux, ha]
      rw [he] at h
      exact ih c h
    · have he : collapseWsAux true (a :: as) = a :: collapseWsAux false as := by
        simp [collapseWsAux, ha]
      rw [he] at h
      simp at h
      rw [← h]
      simpa using ha

theorem collapse_chain (cs : List Char) (prev : Bool) :
    (collapseWsAux prev cs).Chain'
      (fun a b => (pyIsSpace a && pyIsSpace b) = false) := by
  induction cs generalizing prev with
  | nil => simp [collapseWsAux]
  | cons a as ih =>
    by_cases ha : pyIsSpace a = true
    · cases prev with
      | true =>
        have he : collapseWsAux true (a :: as) = collapseWsAux true as := by
          simp [collapseWsAux, ha]
        rw [he]
        exact ih true
      | false =>
        have he : collapseWsAux false (a :: as) =
            ' ' :: collapseWsAux true as := by
          simp [collapseWsAux, ha]
        rw [he, List.chain'_cons']
        refine ⟨?_, ih true⟩
        intro y hy
        have hys := collapse_true_head as y (Option.mem_def.mp hy)
        simp [hys]
    · have he : collapseWsAux prev (a :: as) = a :: collapseWsAux false as := by
        simp [collapseWsAux, ha]
      rw [he, List.chain'_cons']
      refine ⟨?_, ih false⟩
      intro y hy
      simp [Bool.not_eq_true] at ha
      simp [ha]

theorem chain_reverse_self {l : List Char}
    (h : l.Chain' (fun a b => (pyIsSpace a && pyIsSpace b) = false)) :
    l.reverse.Chain' (fun a b => (pyIsSpace a && pyIsSpace b) = false) := by
  rw [List.chain'_reverse]
  exact h.imp (fun {a b} hab => by rw [Bool.and_comm] at hab; exact hab)

theorem chain_dropWhile (p : Char → Bool) {l : List Char}
    (h : l.Chain' (fun a b => (pyIsSpace a && pyIsSpace b) = false)) :
    (l.dropWhile p).Chain'
      (fun a b => (pyIsSpace a && pyIsSpace b) = false) :=
  h.suffix (List.dropWhile_suffix p)

theorem dropWhile_head_false {p : Char → Bool} {l : List Char} {c : Char}
    (h : (l.dropWhile p).head? = some c) : p c = false := by
  induction l with
  | nil => simp [List.dropWhile] at h
  | cons a as ih =>
    by_cases ha : p a = true
    · rw [List.dropWhile_cons, if_pos ha] at h
      exact ih h
    · rw [List.dropWhile_cons, if_neg ha] at h
      simp at h
      rw [← h]
      simpa using ha

theorem dropWhile_getLast? {p : Char → Bool} {l : List Char}
    (h : l.dropWhile p ≠ []) : (l.dropWhile p).getLast? = l.getLast? := by
  induction l with
  | nil => simp [List.dropWhile] at h
  | cons a as ih =>
    by_cases ha : p a = true
    · rw [List.dropWhile_cons, if_pos ha] at h ⊢
      have has : as ≠ [] := by
        intro he
        rw [he] at h
        simp [List.dropWhile] at h
      rw [ih h]
      cases as with
      | nil => exact absurd rfl has
      | cons b bs => rw [List.getLast?_cons_cons]
    · rw [List.dropWhile_cons, if_neg ha]

theorem pyStrip_head {l : List Char} {c : Char}
    (h : (pyStrip l).head? = some c) : pyIsSpace c = false := by
  unfold pyStrip at h
  rw [List.head?_reverse] at h
  have hne : (l.dropWhile pyIsSpace).reverse.dropWhile pyIsSpace ≠ [] := by
    intro he
    rw [he] at h
    simp at h
  rw [dropWhile_getLast? hne, List.getLast?_reverse] at h
  exact dropWhile_head_false h

theorem pyStrip_last {l : List Char} {c : Char}
    (h : (pyStrip l).getLast? = some c) : pyIsSpace c = false := by
  unfold pyStrip at h
  rw [List.getLast?_reverse] at h
  exact dropWhile_head_false h

theorem chain_pyStrip {l : List Char}
    (h : l.Chain' (fun a b => (pyIsSpace a && pyIsSpace b) = false)) :
    (pyStrip l).Chain' (fun a b => (pyIsSpace a && pyIsSpace b) = false) :=
  chain_reverse_self (chain_dropWhile pyIsSpace
    (chain_reverse_self (chain_dropWhile pyIsSpace h)))

/-- C9: whenever `extract_text_from_pdf` succeeds, the returned text
has no run of two or more consecutive whitespace characters and no
leading or trailing whitespace. -/
theorem extract_text_normalized (pdfText out : List Char)
    (h : extract_text_from_pdf (some pdfText) = some out) :
    noDoubleWs out = true ∧
    (∀ c, out.head? = some c → pyIsSpace c = false) ∧
    (∀ c, out.getLast? = some c → pyIsSpace c = false) := by
  have hout : out = normalizeText pdfText := by
    simpa [extract_text_from_pdf] using h.symm
  subst hout
  refine ⟨?_, ?_, ?_⟩
  · rw [noDoubleWs_iff_chain]
    exact chain_pyStrip (collapse_chain pdfText false)
  · intro c hc
    exact pyStrip_head hc
  · intro c hc
    exact pyStrip_last hc

def rawSample : List Char := ' ' :: 'a' :: ' ' :: ' ' :: 'b' :: ' ' :: []

def normSample : List Char := 'a' :: ' ' :: 'b' :: []

/-- C9 witness on a concrete extraction: `" a  b "` normalizes to
`"a b"`, which is run-free and trimmed. -/
theorem extract_text_normalized_witness :
    extract_text_from_pdf (some rawSample) = some normSample ∧
    noDoubleWs normSample = true ∧
    pyIsSpace 'a' = false ∧
    pyIsSpace 'b' = false :=
  ⟨by decide,
   (extract_text_normalized rawSample normSample (by decide)).1,
   (extract_text_normalized rawSample normSample (by decide)).2.1 'a'
     (by decide),
   (extract_text_normalized rawSample normSample (by decide)).2.2 'b'
     (by decide)⟩

/-- Characters able to start a JSON value in `json.loads`. -/
def isJsonStart (c : Char) : Bool :=
  c = '{' || c = '[' || c = '"' || c = 't' || c = 'f' || c = 'n' ||
  c = '-' || c.isDigit

theorem parseValue_none_of_bad_head (fuel : Nat) (l rest : List Char)
    (c : Char) (hhead : skipJsonWs l = c :: rest)
    (hc : isJsonStart c = false) : parseValue fuel l = none := by
  cases fuel with
  | zero => rfl
  | succ n =>
    simp only [isJsonStart, Bool.or_eq_false_iff, decide_eq_false_iff_not,
      Bool.not_eq_true] at hc
    obtain ⟨⟨⟨⟨⟨⟨⟨h1, h2⟩, h3⟩, h4⟩, h5⟩, h6⟩, h7⟩, h8⟩ := hc
    simp only [parseValue, hhead]
    simp [h1, h2, h3, h4, h5, h6, h7, h8]

/-- C1 counterexample: the response is a single well-formed assessment
object preceded by a prose preamble (no code fences).  The code returns
`None` — `json.loads` is applied to the whole text and fails — while
the spec's first-balanced-brace-substring extraction would have
isolated exactly the object, which the code accepts when sent bare.  So
the claimed substring extraction does not happen. -/
theorem analyze_prose_wrapped_object_fails :
    analyze_resume_with_gemini proseResp = none ∧
    spec_extract_json_span proseResp = some goodResp ∧
    (analyze_resume_with_gemini goodResp).isSome = true := by
  refine ⟨?_, ?_, ?_⟩ <;> rfl

/-- C1 amended: `analyze_resume_with_gemini` performs no JSON-substring
extraction: after stripping and code-fence removal the entire remaining
text goes to `json.loads`, so whenever that text begins (after JSON
whitespace) with any character that cannot start a JSON value — e.g.
prose — the call fails with `None` instead of locating the embedded
object. -/
theorem analyze_no_substring_extraction (resp : List Char) (c : Char)
    (rest : List Char)
    (hhead : skipJsonWs (removePat fencePat
      (removePat fenceJsonPat (pyStrip resp))) = c :: rest)
    (hc : isJsonStart c = false) :
    analyze_resume_with_gemini resp = none := by
  have hdef : analyze_resume_with_gemini resp =
      match json_loads (removePat fencePat
        (removePat fenceJsonPat (pyStrip resp))) with
      | none => none
      | some j => validateAnalysis j := rfl
  rw [hdef]
  have hpv := parseValue_none_of_bad_head
    (3 * (removePat fencePat (removePat fenceJsonPat (pyStrip resp))).length
      + 8)
    (removePat fencePat (removePat fenceJsonPat (pyStrip resp))) rest c
    hhead hc
  simp [json_loads, hpv]

/-- C1 amended witness: plain prose with no JSON at all fails. -/
theorem analyze_no_substring_extraction_witness :
    skipJsonWs (removePat fencePat (removePat fenceJsonPat
      (pyStrip ('H' :: 'i' :: [])))) = 'H' :: 'i' :: [] ∧
    isJsonStart 'H' = false ∧
    analyze_resume_with_gemini ('H' :: 'i' :: []) = none :=
  ⟨by decide, by decide,
   analyze_no_substring_extraction ('H' :: 'i' :: []) 'H' ('i' :: [])
     (by decide) (by decide)⟩
